import Mathlib

/-!
Verification development for the DataCharts expression engine
(`shared/algorithms/function_parser.py`, `shared/algorithms/function_library.py`,
`shared/algorithms/safe_executor.py`, `backend/app/core/function_processor.py`,
`shared/data_types.py`).

Python strings are modelled as Lean `String` / `List Char`; Python dicts that
are only read through key lookup are modelled as association lists or as
functions `String → Option α` built by successive dict-update stages; numeric
payloads carried by data columns are modelled with `Int` (no claim here
depends on float arithmetic).  The sympy parse step and the host `eval`
primitive are external collaborators of the repository; they enter the model
as explicit oracle parameters.
-/

/-! ## Character-level helpers (Python `re` / `in` semantics) -/

/-- Python regex `\w` on the ASCII range: letters, digits and underscore. -/
def isWordChar (c : Char) : Bool :=
  c.isAlpha || c.isDigit || c = '_'

/-- Python regex `\s` on the ASCII range. -/
def isSpaceChar (c : Char) : Bool :=
  c = ' ' || c = '\t' || c = '\n' || c = '\r' || c = '\x0b' || c = '\x0c'

/-- Does some suffix of the character list satisfy the matcher `m`?
This is the search part of Python `re.search`: try every start position. -/
def anySuffix (m : List Char → Bool) : List Char → Bool
  | [] => m []
  | c :: rest => m (c :: rest) || anySuffix m rest

/-- Python `needle in hay` (plain substring containment). -/
def containsTok (hay needle : String) : Bool :=
  anySuffix (fun cs => needle.data.isPrefixOf cs) hay.data

/-- Zero or more `\w` characters followed by a literal `__`. -/
def wordsThenDunder : List Char → Bool
  | '_' :: '_' :: _ => true
  | c :: rest => isWordChar c && wordsThenDunder rest
  | [] => false

/-- One or more `\w` characters followed by a literal `__`
(the part of `__\w+__` after the opening underscores). -/
def dunderTail : List Char → Bool
  | c :: rest => isWordChar c && wordsThenDunder rest
  | [] => false

/-- Matcher for the regex `__\w+__` anchored at the start of the list. -/
def dunderHere : List Char → Bool
  | '_' :: '_' :: rest => dunderTail rest
  | _ => false

/-- `\s*\(` anchored at the start of the list. -/
def spacesThenParen : List Char → Bool
  | '(' :: _ => true
  | c :: rest => isSpaceChar c && spacesThenParen rest
  | [] => false

/-- Matcher for `name\s*\(` anchored at the start of the list
(the shape of the parser's `exec|eval|open|file|input|raw_input` patterns). -/
def callHere (name : String) (cs : List Char) : Bool :=
  name.data.isPrefixOf cs && spacesThenParen (cs.drop name.data.length)

/-- Matcher for `import\s+` anchored at the start of the list. -/
def importHere (cs : List Char) : Bool :=
  "import".data.isPrefixOf cs &&
    (match cs.drop 6 with
     | c :: _ => isSpaceChar c
     | [] => false)

/-! ## `ExpressionParser` safety gate
(`function_parser.py`, `dangerous_patterns` and `_is_expression_safe`). -/

/-- `ExpressionParser.dangerous_patterns` matching, `re.search` with
`re.IGNORECASE`: fold the text to lower case and try the eight patterns. -/
def hasDangerousPattern (expression : String) : Bool :=
  let l := expression.data.map Char.toLower
  anySuffix dunderHere l ||
  anySuffix importHere l ||
  anySuffix (callHere "exec") l ||
  anySuffix (callHere "eval") l ||
  anySuffix (callHere "open") l ||
  anySuffix (callHere "file") l ||
  anySuffix (callHere "input") l ||
  anySuffix (callHere "raw_input") l

/-- `ExpressionParser._get_nesting_depth`: running depth (may go negative on
unbalanced closers) and the maximum value it reaches on an opener. -/
def nestingStep : Int × Int → Char → Int × Int
  | (depth, maxDepth), c =>
    if c = '(' then (depth + 1, max maxDepth (depth + 1))
    else if c = ')' then (depth - 1, maxDepth)
    else (depth, maxDepth)

/-- `ExpressionParser._get_nesting_depth`. -/
def getNestingDepth (expression : String) : Int :=
  (expression.data.foldl nestingStep (0, 0)).2

/-- `ExpressionParser._is_expression_safe`: dangerous patterns, then the
1000-character limit, then the nesting-depth limit of 10. -/
def isExpressionSafe (expression : String) : Bool :=
  if hasDangerousPattern expression then false
  else if expression.length > 1000 then false
  else if getNestingDepth expression > 10 then false
  else true

/-! ## `FunctionLibrary` (`function_library.py`)
Each namespace value is an opaque Python object identified by where the code
obtains it (`np.sin`, the builtin `len`, a module, one of the category
lambdas) or a bound data vector. -/

inductive NsValue where
  | obj (ident : String)
  | data (vals : List Int)
deriving DecidableEq, Repr

/-- `FunctionLibrary.MATH_FUNCTIONS`. -/
def mathFunctions : List (String × NsValue) :=
  [("sin", .obj "np.sin"), ("cos", .obj "np.cos"), ("tan", .obj "np.tan"),
   ("log", .obj "np.log"), ("exp", .obj "np.exp"), ("sqrt", .obj "np.sqrt"),
   ("abs", .obj "np.abs"), ("floor", .obj "np.floor"), ("ceil", .obj "np.ceil"),
   ("round", .obj "np.round"), ("pi", .obj "np.pi"), ("e", .obj "np.e")]

/-- `FunctionLibrary.STATISTICAL_FUNCTIONS`. -/
def statisticalFunctions : List (String × NsValue) :=
  [("mean", .obj "np.mean"), ("std", .obj "np.std"), ("var", .obj "np.var"),
   ("median", .obj "np.median"), ("min", .obj "np.min"), ("max", .obj "np.max"),
   ("sum", .obj "np.sum"), ("count", .obj "builtin.len"),
   ("quantile", .obj "lambda.quantile")]

/-- `FunctionLibrary.TRANSFORM_FUNCTIONS`. -/
def transformFunctions : List (String × NsValue) :=
  [("normalize", .obj "lambda.normalize"), ("standardize", .obj "lambda.standardize"),
   ("scale", .obj "lambda.scale"), ("log_transform", .obj "lambda.log_transform"),
   ("power_transform", .obj "lambda.power_transform")]

/-- `FunctionLibrary.FILTER_FUNCTIONS`. -/
def filterFunctions : List (String × NsValue) :=
  [("moving_average", .obj "lambda.moving_average"),
   ("gaussian_filter", .obj "lambda.gaussian_filter"),
   ("median_filter", .obj "lambda.median_filter"),
   ("rolling_sum", .obj "lambda.rolling_sum")]

/-- `FunctionLibrary.get_all_functions`: the four category dicts merged in
order; their key sets are pairwise disjoint, so concatenation with
first-match lookup models the dict unions exactly. -/
def getAllFunctions : List (String × NsValue) :=
  mathFunctions ++ statisticalFunctions ++ transformFunctions ++ filterFunctions

/-- `FunctionLibrary.get_supported_function_names`. -/
def supportedFunctionNames : List String :=
  getAllFunctions.map (fun p => p.1)

/-- `FunctionLibrary.is_function_supported`. -/
def isFunctionSupported (funcName : String) : Bool :=
  supportedFunctionNames.contains funcName

/-! ## `SafeExecutionEnvironment.validate_expression_safety`
(`safe_executor.py`). -/

/-- `SafeExecutionEnvironment.forbidden_builtins`. -/
def forbiddenBuiltins : List String :=
  ["eval", "exec", "compile", "__import__",
   "open", "file", "input", "raw_input",
   "reload", "vars", "globals", "locals",
   "dir", "hasattr", "getattr", "setattr",
   "delattr", "callable"]

/-- The `(pattern, message)` pairs checked by `validate_expression_safety`
(plain case-sensitive substring containment). -/
def validatorDangerous : List (String × String) :=
  [("__", "包含双下划线方法调用"),
   ("import", "包含import语句"),
   ("while", "包含while循环"),
   ("for", "包含for循环")]

structure SafetyReport where
  is_safe : Bool
  issues : List String
  warnings : List String
  risk_level : String
deriving DecidableEq, Repr

/-- `SafeExecutionEnvironment.validate_expression_safety`: collect issues
from the forbidden-builtin substrings and the dangerous substrings, then
length/parenthesis-count warnings, then derive `is_safe` and `risk_level`. -/
def validateExpressionSafety (expression : String) : SafetyReport :=
  let issues :=
    (forbiddenBuiltins.filter (fun f => containsTok expression f)).map
      (fun f => "包含禁用的函数: " ++ f) ++
    (validatorDangerous.filter (fun p => containsTok expression p.1)).map
      (fun p => p.2)
  let warnings :=
    (if expression.length > 500 then ["表达式过长，可能影响执行性能"] else []) ++
    (if (expression.data.filter (fun c => c = '(')).length > 20 then
       ["表达式嵌套过深，可能影响执行性能"] else [])
  { is_safe := issues.isEmpty,
    issues := issues,
    warnings := warnings,
    risk_level :=
      if issues.isEmpty then (if warnings.isEmpty then "low" else "medium")
      else "high" }

/-! ## The sympy expression tree
(`sympy.sympify` output as consumed by `_extract_variables` /
`_extract_functions`).  Every sympy node `n` has `n.func.__name__`: the class
name (`Symbol`, `Integer`, `Add`, `sin`, or an undefined function's own
name); children are visited in order by `sp.preorder_traversal`. -/

mutual
inductive SymExpr where
  | symbol (name : String)
  | number (n : Int)
  | node (clsName : String) (args : SymArgs)
deriving DecidableEq, Repr
inductive SymArgs where
  | nil
  | cons (head : SymExpr) (tail : SymArgs)
deriving DecidableEq, Repr
end

/-- Union of two duplicate-free name lists, keeping the left order. -/
def mergeNames (xs ys : List String) : List String :=
  xs ++ ys.filter (fun y => !(xs.contains y))

mutual
/-- The class name (`node.func.__name__`) of every tree node in
`sp.preorder_traversal` order. -/
def preorderNames : SymExpr → List String
  | .symbol _ => ["Symbol"]
  | .number _ => ["Integer"]
  | .node clsName args => clsName :: preorderNamesArgs args
def preorderNamesArgs : SymArgs → List String
  | .nil => []
  | .cons e rest => preorderNames e ++ preorderNamesArgs rest
end

mutual
/-- `parsed_expr.free_symbols` (a set; modelled as a duplicate-free list). -/
def freeSymbols : SymExpr → List String
  | .symbol s => [s]
  | .number _ => []
  | .node _ args => freeSymbolsArgs args
def freeSymbolsArgs : SymArgs → List String
  | .nil => []
  | .cons e rest => mergeNames (freeSymbols e) (freeSymbolsArgs rest)
end

/-- The synonym step inside `_extract_functions`: only the seven listed class
names are ever collected, with `Abs` renamed to `abs`.  (The `elif
isinstance(node, sp.Function)` branch in the source is unreachable: the first
branch's `hasattr(node, 'func') and hasattr(node.func, '__name__')` test holds
for every sympy node, because `node.func` is always the node's class.) -/
def synonymMap (clsName : String) : Option String :=
  if ["sin", "cos", "tan", "log", "exp", "sqrt", "Abs"].contains clsName then
    some (if clsName = "Abs" then "abs" else clsName)
  else none

/-- `ExpressionParser._extract_functions` (set modelled as a duplicate-free
list accumulated over the preorder traversal). -/
def extractFunctions (e : SymExpr) : List String :=
  (preorderNames e).foldl
    (fun acc n =>
      match synonymMap n with
      | some m => if acc.contains m then acc else acc ++ [m]
      | none => acc) []

/-- Insertion into a `≤`-sorted list of strings. -/
def insertSorted (x : String) : List String → List String
  | [] => [x]
  | y :: ys => if x ≤ y then x :: y :: ys else y :: insertSorted x ys

/-- Python `sorted` on strings (lexicographic). -/
def sortNames (l : List String) : List String := l.foldr insertSorted []

/-- `ExpressionParser._extract_variables`: free symbols minus the constants
`pi`, `e`, `I` and the registry names, sorted. -/
def extractVariables (e : SymExpr) : List String :=
  sortNames ((freeSymbols e).filter
    (fun v => !(["pi", "e", "I"].contains v) && !(isFunctionSupported v)))

/-- `ExpressionParser._validate_functions`. -/
def validateFunctions (functionsUsed : List String) : Except String Unit :=
  let unsupported := functionsUsed.filter (fun n => !(isFunctionSupported n))
  if unsupported.isEmpty then Except.ok ()
  else
    Except.error ("不支持的函数: " ++ String.intercalate ", " unsupported ++
      ". 支持的函数列表: " ++ String.intercalate ", " supportedFunctionNames)

/-! ## `_extract_parameters`: `re.findall(r'\b\d+\.?\d*\b', expression)`. -/

/-- Python numeric literal values: `int(...)` or `float(...)` results
(floats modelled as exact rationals). -/
inductive PyNum where
  | intVal (n : Int)
  | floatVal (q : ℚ)
deriving DecidableEq, Repr

def digitsToNat (ds : List Char) : Nat :=
  ds.foldl (fun a c => a * 10 + (c.toNat - 48)) 0

/-- Is there a regex word boundary after a token whose last character is a
word character iff `lastIsWord`, when the remaining input is the list? -/
def boundaryAfterW (lastIsWord : Bool) : List Char → Bool
  | [] => lastIsWord
  | c :: _ => lastIsWord != isWordChar c

/-- Match `\d+\.?\d*\b` at the start of the list (the caller has checked the
opening `\b` and that the first character is a digit), with the regex
backtracking order: longest token first, then drop the trailing fraction,
then drop the dot.  Returns the token and the remaining input. -/
def matchNum (cs : List Char) : Option (List Char × List Char) :=
  let ds := cs.takeWhile Char.isDigit
  let rest1 := cs.drop ds.length
  if ds.isEmpty then none
  else
    match rest1 with
    | '.' :: rest2 =>
      let ds2 := rest2.takeWhile Char.isDigit
      let rest3 := rest2.drop ds2.length
      if boundaryAfterW (!ds2.isEmpty) rest3 then some (ds ++ '.' :: ds2, rest3)
      else if !ds2.isEmpty then some (ds ++ ['.'], ds2 ++ rest3)
      else some (ds, '.' :: rest2)
    | _ => if boundaryAfterW true rest1 then some (ds, rest1) else none

/-- The scan part of `re.findall`: walk the input left to right, tracking
whether the previous character was a word character (for the opening `\b`);
fuel is the input length, consumed at least one character per step. -/
def scanNums : Nat → Bool → List Char → List (List Char)
  | 0, _, _ => []
  | fuel + 1, prevIsWord, cs =>
    match cs with
    | [] => []
    | c :: rest =>
      if c.isDigit && !prevIsWord then
        match matchNum (c :: rest) with
        | some (tok, remaining) =>
          tok :: scanNums fuel (isWordChar (tok.getLastD '0')) remaining
        | none => scanNums fuel (isWordChar c) rest
      else scanNums fuel (isWordChar c) rest

/-- `int(num)` / `float(num)` on a matched token (`float` taken exactly). -/
def pyNumOfToken (tok : List Char) : PyNum :=
  if tok.contains '.' then
    let whole := tok.takeWhile Char.isDigit
    let frac := tok.drop (whole.length + 1)
    PyNum.floatVal ((digitsToNat whole : ℚ) + (digitsToNat frac : ℚ) / ((10 : ℚ) ^ frac.length))
  else PyNum.intVal (digitsToNat tok)

/-- `ExpressionParser._extract_parameters`. -/
def extractParameters (expression : String) : List (String × PyNum) :=
  (scanNums expression.data.length false expression.data).enum.map
    (fun p => ("const_" ++ toString p.1, pyNumOfToken p.2))

/-! ## `ExpressionParser.parse_expression` / `validate_syntax`
(`function_parser.py` lines 40-101, `data_types.FunctionExpression`).
The sympy call is an external collaborator: it enters as an oracle
`sympify : String → Option SymExpr` (`none` models a raised exception). -/

structure FunctionExpression where
  expression : String
  «variables» : List String
  parameters : List (String × PyNum)
deriving DecidableEq, Repr

def parseExpression (sympify : String → Option SymExpr) (expression : String) :
    Except String FunctionExpression :=
  if !(isExpressionSafe expression) then Except.error "表达式包含不安全的操作"
  else
    match sympify expression with
    | none => Except.error "表达式语法错误"
    | some tree =>
      let vs := extractVariables tree
      match validateFunctions (extractFunctions tree) with
      | Except.error msg => Except.error msg
      | Except.ok _ =>
        Except.ok { expression := expression,
                    «variables» := vs,
                    parameters := extractParameters expression }

/-- `ExpressionParser.validate_syntax` and `FunctionProcessor.validate_syntax`
(both: try `parse_expression`, `True` on success, `False` on exception). -/
def validateSyntax (sympify : String → Option SymExpr) (expression : String) : Bool :=
  match parseExpression sympify expression with
  | Except.ok _ => true
  | Except.error _ => false

/-- The `functions_used` set computed (and then discarded) while parsing. -/
def functionsUsedOf (sympify : String → Option SymExpr) (expression : String) :
    Option (List String) :=
  (sympify expression).map extractFunctions

/-- Modelled sympy parse results for the concrete inputs appearing in the
witnesses below: `sympify("x")` is the symbol `x`; `sympify("foo(x)")` and
`sympify("power_transform(x)")` are undefined-function applications whose
class names are `foo` and `power_transform`. -/
def sympifyModel : String → Option SymExpr :=
  fun t =>
    if t = "x" then some (SymExpr.symbol "x")
    else if t = "foo(x)" then
      some (SymExpr.node "foo" (SymArgs.cons (SymExpr.symbol "x") SymArgs.nil))
    else if t = "power_transform(x)" then
      some (SymExpr.node "power_transform" (SymArgs.cons (SymExpr.symbol "x") SymArgs.nil))
    else none

deriving instance DecidableEq for Except

/-! ## `SafeExecutionEnvironment` namespace construction
(`safe_executor.py` lines 43-104).  The evaluation namespace is a Python
dict built by successive `update` calls; it is modelled as a function
`String → Option NsValue`, each `update` stage shadowing the previous. -/

/-- `SafeExecutionEnvironment.allowed_builtins`: the dict that the code
stores under the namespace's `__builtins__` key. -/
def allowedBuiltins : List (String × NsValue) :=
  [("abs", .obj "builtin.abs"), ("round", .obj "builtin.round"),
   ("min", .obj "builtin.min"), ("max", .obj "builtin.max"),
   ("sum", .obj "builtin.sum"), ("len", .obj "builtin.len"),
   ("range", .obj "builtin.range"), ("enumerate", .obj "builtin.enumerate"),
   ("zip", .obj "builtin.zip"), ("bool", .obj "builtin.bool"),
   ("int", .obj "builtin.int"), ("float", .obj "builtin.float"),
   ("str", .obj "builtin.str"), ("list", .obj "builtin.list"),
   ("tuple", .obj "builtin.tuple"), ("dict", .obj "builtin.dict"),
   ("set", .obj "builtin.set")]

/-- The base namespace of `create_safe_namespace`: the `allowed_builtins`
dict under `__builtins__` (see `allowedBuiltins`), plus the two modules. -/
def baseNamespace : String → Option NsValue :=
  fun k =>
    [("__builtins__", NsValue.obj "allowed_builtins_dict"),
     ("np", NsValue.obj "module.numpy"),
     ("pd", NsValue.obj "module.pandas")].lookup k

/-- The constants merged by the final `update` of `create_safe_namespace`. -/
def mathConstants : List (String × NsValue) :=
  [("pi", .obj "np.pi"), ("e", .obj "np.e"),
   ("inf", .obj "np.inf"), ("nan", .obj "np.nan")]

/-- Python `dict.update`: entries shadow the base dict on key lookup. -/
def dictUpd (base : String → Option NsValue) (entries : List (String × NsValue)) :
    String → Option NsValue :=
  fun k =>
    match entries.lookup k with
    | some v => some v
    | none => base k

/-- `SafeExecutionEnvironment.create_safe_namespace`: base dict, then
`update(get_all_functions())`, then `update(data_vars)`, then the constants
`pi`, `e`, `inf`, `nan` last. -/
def createSafeNamespace (dataVars : List (String × NsValue)) :
    String → Option NsValue :=
  dictUpd (dictUpd (dictUpd baseNamespace getAllFunctions) dataVars) mathConstants

/-! ## `SafeExecutionEnvironment._prepare_data_variables` (DataBinder). -/

/-- A pandas DataFrame: named columns and the row count `len(df)`.  The data
payload is modelled with `Int` entries. -/
structure DataFrame where
  cols : List (String × List Int)
  nrows : Nat
deriving DecidableEq, Repr

/-- `df.index.values`, with the index modelled as pandas' default
`RangeIndex` over the rows. -/
def indexValues (df : DataFrame) : List Int :=
  (List.range df.nrows).map Int.ofNat

/-- `np.arange(len(df))`. -/
def arangeRows (df : DataFrame) : List Int :=
  (List.range df.nrows).map Int.ofNat

/-- `var.startswith('col_') and var[4:].isdigit()`, returning `int(var[4:])`
when the test passes (`isdigit`: non-empty and all digits). -/
def colSuffix (v : String) : Option Nat :=
  if "col_".data.isPrefixOf v.data then
    let suffix := v.data.drop 4
    if !suffix.isEmpty && suffix.all Char.isDigit then some (digitsToNat suffix)
    else none
  else none

/-- The binding the loop body of `_prepare_data_variables` creates for one
requested name: column match, then `index`, then in-range `col_N` (an
out-of-range `col_N` enters the branch and binds nothing), then the
`np.arange` default. -/
def resolveVar (df : DataFrame) (v : String) : Option NsValue :=
  match df.cols.lookup v with
  | some vals => some (NsValue.data vals)
  | none =>
    if v = "index" then some (NsValue.data (indexValues df))
    else
      match colSuffix v with
      | some colIdx =>
        if colIdx < df.cols.length then
          (df.cols.get? colIdx).map (fun p => NsValue.data p.2)
        else none
      | none => some (NsValue.data (arangeRows df))

/-- `SafeExecutionEnvironment._prepare_data_variables`. -/
def prepareDataVariables (df : DataFrame) (vs : List String) :
    List (String × NsValue) :=
  vs.filterMap (fun v => (resolveVar df v).map (fun val => (v, val)))

/-! ## `execute_expression`, `_process_result`, `apply_function_to_data`
(`safe_executor.py` lines 106-283) and `FunctionProcessor.apply_function`.
The host `eval` under the timeout handler is an external primitive; it
enters as an oracle returning a value, a timeout, or another exception. -/

/-- Raw Python values an evaluation can produce, by the shape distinctions
`_process_result` makes. -/
inductive PyValue where
  | ndarray0 (x : Int)
  | ndarray1 (vals : List Int)
  | ndarrayN (flat : List Int)
  | series (vals : List Int)
  | num (n : Int)
  | pylist (vals : List Int)
  | other (pyRepr : String) (asFloat : Option Int)
deriving DecidableEq, Repr

/-- `_process_result` output shapes. -/
inductive PData where
  | scalar (x : Int)
  | seriesData (vals : List Int)
  | listData (vals : List Int)
  | numData (x : Int)
  | strData (s : String)
deriving DecidableEq, Repr

/-- `SafeExecutionEnvironment._process_result`: 0-d arrays become scalars,
length-matched 1-d arrays become a row-aligned Series, other arrays and
lists become plain lists, numbers pass through, and anything else is
float-coerced when possible (`asFloat`) and stringified otherwise. -/
def processResult (result : PyValue) (originalDf : DataFrame) : PData :=
  match result with
  | .ndarray0 x => PData.scalar x
  | .ndarray1 vals =>
    if vals.length = originalDf.nrows then PData.seriesData vals
    else PData.listData vals
  | .ndarrayN flat => PData.listData flat
  | .series vals => PData.seriesData vals
  | .num n => PData.numData n
  | .pylist vals => PData.listData vals
  | .other _ (some f) => PData.scalar f
  | .other pyRepr none => PData.strData pyRepr

/-- Outcome of the host `eval` call under the timeout handler. -/
inductive PyOutcome where
  | ok (v : PyValue)
  | raisedTimeout
  | raised (msg : String)

/-- The two exception types `apply_function_to_data` distinguishes. -/
inductive ExecErr where
  | timeoutErr (msg : String)
  | parseFail (msg : String)
deriving DecidableEq, Repr

/-- `SafeExecutionEnvironment.execute_expression`: run the oracle; a timeout
is re-raised as `ExecutionTimeoutError` with the deadline in the message,
any other exception is wrapped in `FunctionParseError`. -/
def executeExpression (evalOracle : String → (String → Option NsValue) → PyOutcome)
    (maxExecutionTime : Nat) (expression : String)
    (ns : String → Option NsValue) : Except ExecErr PyValue :=
  match evalOracle expression ns with
  | .ok v => Except.ok v
  | .raisedTimeout =>
    Except.error (.timeoutErr ("执行超时 (" ++ toString maxExecutionTime ++ "秒)"))
  | .raised msg => Except.error (.parseFail ("表达式执行失败: " ++ msg))

/-- `data_types.DataSource`; `content = none` models content that is not a
pandas DataFrame (the `metadata` dict plays no role in the core). -/
structure DataSource where
  id : String
  format : String
  content : Option DataFrame
deriving DecidableEq, Repr

/-- `data_types.ProcessingResult`.  The wall-clock `processing_time` field is
outside the embedding and omitted. -/
structure ProcessingResult where
  data : Option PData
  status : String
  error_message : Option String
deriving DecidableEq, Repr

/-- `SafeExecutionEnvironment.apply_function_to_data`: DataFrame check, data
binding, namespace construction, sandboxed evaluation, result coercion; the
two typed exceptions and the catch-all both produce an error result. -/
def applyFunctionToData (evalOracle : String → (String → Option NsValue) → PyOutcome)
    (maxExecutionTime : Nat) (data : DataSource) (expression : String)
    (vs : List String) : ProcessingResult :=
  match data.content with
  | none =>
    { data := none, status := "error",
      error_message := some "数据必须是pandas DataFrame格式" }
  | some df =>
    let ns := createSafeNamespace (prepareDataVariables df vs)
    match executeExpression evalOracle maxExecutionTime expression ns with
    | Except.error (.timeoutErr m) =>
      { data := none, status := "error", error_message := some m }
    | Except.error (.parseFail m) =>
      { data := none, status := "error", error_message := some m }
    | Except.ok v =>
      { data := some (processResult v df), status := "success",
        error_message := none }

/-- `FunctionProcessor.apply_function`: delegate to the evaluator (its own
`except` wrapper never fires, the callee returns normally on every path). -/
def applyFunction (evalOracle : String → (String → Option NsValue) → PyOutcome)
    (maxExecutionTime : Nat) (data : DataSource) (fe : FunctionExpression) :
    ProcessingResult :=
  applyFunctionToData evalOracle maxExecutionTime data fe.expression fe.«variables»

/-! ## Claim theorems -/

/-- C6. For every input text whose length exceeds 1000 characters or whose
maximum open-parenthesis depth exceeds 10, `parse_expression` fails with the
unsafe-expression error and returns no partial expression, whatever the
symbolic parser would have said. -/
theorem parse_rejects_long_or_deep
    (sympify : String → Option SymExpr) (expression : String)
    (h : expression.length > 1000 ∨ getNestingDepth expression > 10) :
    parseExpression sympify expression = Except.error "表达式包含不安全的操作" := by
  have hsafe : isExpressionSafe expression = false := by
    rcases h with h | h <;> simp [isExpressionSafe, h]
  simp [parseExpression, hsafe]

/-- Witness for `parse_rejects_long_or_deep` at a depth-11 input. -/
theorem parse_rejects_long_or_deep_witness :
    getNestingDepth "(((((((((((x)))))))))))" > 10 ∧
    parseExpression (fun _ => none) "(((((((((((x)))))))))))" =
      Except.error "表达式包含不安全的操作" :=
  ⟨by decide,
   parse_rejects_long_or_deep (fun _ => none) "(((((((((((x)))))))))))"
     (Or.inr (by decide))⟩

/-- C7. In every `SafetyReport` produced by `validate_expression_safety`,
`is_safe` holds iff `issues` is empty, and `risk_level` is `high` / `medium`
/ `low` according to whether issues, else warnings, are present. -/
theorem safety_report_risk_levels (expression : String) :
    ((validateExpressionSafety expression).is_safe = true ↔
      (validateExpressionSafety expression).issues = []) ∧
    ((validateExpressionSafety expression).issues ≠ [] →
      (validateExpressionSafety expression).risk_level = "high") ∧
    ((validateExpressionSafety expression).issues = [] →
      (validateExpressionSafety expression).warnings ≠ [] →
      (validateExpressionSafety expression).risk_level = "medium") ∧
    ((validateExpressionSafety expression).issues = [] →
      (validateExpressionSafety expression).warnings = [] →
      (validateExpressionSafety expression).risk_level = "low") := by
  obtain ⟨I, W, hr⟩ :
      ∃ I W, validateExpressionSafety expression =
        { is_safe := I.isEmpty, issues := I, warnings := W,
          risk_level :=
            if I.isEmpty then (if W.isEmpty then "low" else "medium")
            else "high" } := ⟨_, _, rfl⟩
  rw [hr]
  cases I with
  | nil =>
    cases W with
    | nil => simp
    | cons w ws => simp
  | cons i is => simp

/-- Witness for `safety_report_risk_levels` at inputs realizing the three
risk levels. -/
theorem safety_report_risk_levels_witness :
    (validateExpressionSafety "import").risk_level = "high" ∧
    (validateExpressionSafety "(((((((((((((((((((((").risk_level = "medium" ∧
    (validateExpressionSafety "x").risk_level = "low" :=
  ⟨(safety_report_risk_levels "import").2.1 (by decide),
   (safety_report_risk_levels "(((((((((((((((((((((").2.2.1 (by decide) (by decide),
   (safety_report_risk_levels "x").2.2.2 (by decide) (by decide)⟩

/-- C8. `validate_syntax` returns `true` exactly when `parse_expression`
succeeds (both the parser's and the processor's versions call
`parse_expression` and map success to `True`, any raise to `False`). -/
theorem validate_syntax_iff_parse_succeeds
    (sympify : String → Option SymExpr) (expression : String) :
    validateSyntax sympify expression = true ↔
      ∃ fe, parseExpression sympify expression = Except.ok fe := by
  unfold validateSyntax
  cases h : parseExpression sympify expression with
  | ok fe => simp
  | error msg => simp

/-- C9. Every accepted text is stored unchanged as the expression's raw text,
and re-parsing that raw text returns the identical expression object (same
variables, same parameters) and recomputes the same `functions_used` set. -/
theorem parse_idempotent_on_accepted
    (sympify : String → Option SymExpr) (expression : String)
    (fe : FunctionExpression)
    (h : parseExpression sympify expression = Except.ok fe) :
    fe.expression = expression ∧
    parseExpression sympify fe.expression = Except.ok fe ∧
    functionsUsedOf sympify fe.expression = functionsUsedOf sympify expression := by
  have hexp : fe.expression = expression := by
    unfold parseExpression at h
    split at h
    · exact absurd h (by simp)
    · split at h
      · exact absurd h (by simp)
      · split at h
        · exact absurd h (by simp)
        · cases h
          rfl
  exact ⟨hexp, by rw [hexp]; exact h, by rw [hexp]⟩

/-- Witness for `parse_idempotent_on_accepted` at the accepted input `x`. -/
theorem parse_idempotent_on_accepted_witness :
    ({ expression := "x", «variables» := ["x"],
       parameters := [] : FunctionExpression }).expression = "x" ∧
    parseExpression sympifyModel
        ({ expression := "x", «variables» := ["x"],
           parameters := [] : FunctionExpression }).expression =
      Except.ok { expression := "x", «variables» := ["x"], parameters := [] } ∧
    functionsUsedOf sympifyModel
        ({ expression := "x", «variables» := ["x"],
           parameters := [] : FunctionExpression }).expression =
      functionsUsedOf sympifyModel "x" :=
  parse_idempotent_on_accepted sympifyModel "x"
    { expression := "x", «variables» := ["x"], parameters := [] } (by decide)

/-- C10. The safety scan matches forbidden words as plain case-sensitive
substrings: `power_transform(x)` uses only the registry function
`power_transform`, parses successfully, yet is flagged unsafe with high risk
because its name contains `for`. -/
theorem parser_validator_disagreement :
    parseExpression sympifyModel "power_transform(x)" =
      Except.ok { expression := "power_transform(x)", «variables» := ["x"],
                  parameters := [] } ∧
    isFunctionSupported "power_transform" = true ∧
    containsTok "power_transform(x)" "for" = true ∧
    (validateExpressionSafety "power_transform(x)").is_safe = false ∧
    (validateExpressionSafety "power_transform(x)").risk_level = "high" := by
  decide

/-- Helper: issue non-emptiness forces `is_safe = false` and high risk. -/
theorem safety_report_wellformed_aux (expression : String) :
    ((validateExpressionSafety expression).issues ≠ [] →
      (validateExpressionSafety expression).is_safe = false) ∧
    ((validateExpressionSafety expression).issues ≠ [] →
      (validateExpressionSafety expression).risk_level = "high") := by
  obtain ⟨I, W, hr⟩ :
      ∃ I W, validateExpressionSafety expression =
        { is_safe := I.isEmpty, issues := I, warnings := W,
          risk_level :=
            if I.isEmpty then (if W.isEmpty then "low" else "medium")
            else "high" } := ⟨_, _, rfl⟩
  rw [hr]
  cases I with
  | nil => simp
  | cons i is => simp

/-- Helper: any hit among the validator's forbidden-builtin substrings or its
dangerous-pattern substrings makes the issue list non-empty, hence
`is_safe = false` and `risk_level = "high"`. -/
theorem validator_flags_issue (expression f : String)
    (hf : f ∈ forbiddenBuiltins ∨ ∃ m, (f, m) ∈ validatorDangerous)
    (hc : containsTok expression f = true) :
    (validateExpressionSafety expression).is_safe = false ∧
    (validateExpressionSafety expression).risk_level = "high" := by
  have hne : (validateExpressionSafety expression).issues ≠ [] := by
    simp only [validateExpressionSafety]
    rcases hf with hf | ⟨m, hf⟩
    · intro hcontra
      rcases List.append_eq_nil.mp hcontra with ⟨h1, _⟩
      have : f ∈ List.filter (fun g => containsTok expression g) forbiddenBuiltins :=
        List.mem_filter.mpr ⟨hf, hc⟩
      exact absurd (List.map_eq_nil_iff.mp h1 ▸ this) (List.not_mem_nil f)
    · intro hcontra
      rcases List.append_eq_nil.mp hcontra with ⟨_, h2⟩
      have : (f, m) ∈ List.filter (fun p => containsTok expression p.1) validatorDangerous :=
        List.mem_filter.mpr ⟨hf, hc⟩
      exact absurd (List.map_eq_nil_iff.mp h2 ▸ this) (List.not_mem_nil (f, m))
  constructor
  · have h1 := (safety_report_wellformed_aux expression).1
    exact h1 hne
  · exact (safety_report_wellformed_aux expression).2 hne

/-- C2 (amended). Any text matching one of the parser's denylist patterns,
matched case-insensitively, is rejected by `parse_expression` with the
unsafe-operation error; `validate_expression_safety` reports
`is_safe = false` with `risk_level = "high"` whenever the pattern's literal
lowercase core occurs in the text as a case-sensitive substring — the
validator matches case-sensitively, so on other case variants the two
checks disagree (see the counterexample). -/
theorem denylist_rejection_amended
    (sympify : String → Option SymExpr) (expression : String)
    (h : hasDangerousPattern expression = true) :
    parseExpression sympify expression = Except.error "表达式包含不安全的操作" ∧
    (∀ core ∈ ["__", "import", "eval", "exec", "open", "file", "input",
        "raw_input"],
      containsTok expression core = true →
      (validateExpressionSafety expression).is_safe = false ∧
      (validateExpressionSafety expression).risk_level = "high") := by
  constructor
  · have hsafe : isExpressionSafe expression = false := by
      simp [isExpressionSafe, h]
    simp [parseExpression, hsafe]
  · intro core hcore hcont
    simp only [List.mem_cons, List.not_mem_nil, or_false] at hcore
    rcases hcore with rfl | rfl | rfl | rfl | rfl | rfl | rfl | rfl
    · exact validator_flags_issue expression "__"
        (Or.inr ⟨"包含双下划线方法调用", by decide⟩) hcont
    · exact validator_flags_issue expression "import"
        (Or.inr ⟨"包含import语句", by decide⟩) hcont
    · exact validator_flags_issue expression "eval" (Or.inl (by decide)) hcont
    · exact validator_flags_issue expression "exec" (Or.inl (by decide)) hcont
    · exact validator_flags_issue expression "open" (Or.inl (by decide)) hcont
    · exact validator_flags_issue expression "file" (Or.inl (by decide)) hcont
    · exact validator_flags_issue expression "input" (Or.inl (by decide)) hcont
    · exact validator_flags_issue expression "raw_input" (Or.inl (by decide)) hcont

/-- C2 counterexample: `EVAL(x)` matches the denylist case-insensitively and
is rejected by the parser, but `validate_expression_safety` (which matches
case-sensitively) reports it safe with low risk — refuting the claim that
both checks flag every case-insensitive match. -/
theorem denylist_case_sensitivity_counterexample :
    hasDangerousPattern "EVAL(x)" = true ∧
    parseExpression (fun _ => none) "EVAL(x)" =
      Except.error "表达式包含不安全的操作" ∧
    (validateExpressionSafety "EVAL(x)").is_safe = true ∧
    (validateExpressionSafety "EVAL(x)").risk_level = "low" := by
  decide

/-- Witness for `denylist_rejection_amended` at the lowercase input
`eval(x)`. -/
theorem denylist_rejection_amended_witness :
    parseExpression (fun _ => none) "eval(x)" =
      Except.error "表达式包含不安全的操作" ∧
    (validateExpressionSafety "eval(x)").is_safe = false ∧
    (validateExpressionSafety "eval(x)").risk_level = "high" :=
  ⟨(denylist_rejection_amended (fun _ => none) "eval(x)" (by decide)).1,
   (denylist_rejection_amended (fun _ => none) "eval(x)" (by decide)).2
     "eval" (by decide) (by decide)⟩

/-- Helper: membership in the accumulator fold of `_extract_functions`. -/
theorem mem_extract_foldl (n : String) (l : List String) :
    ∀ acc : List String,
      (n ∈ l.foldl
        (fun acc m =>
          match synonymMap m with
          | some s => if acc.contains s then acc else acc ++ [s]
          | none => acc) acc ↔
        n ∈ acc ∨ ∃ m, m ∈ l ∧ synonymMap m = some n) := by
  induction l with
  | nil => intro acc; simp
  | cons m rest ih =>
    intro acc
    simp only [List.foldl_cons]
    rw [ih]
    cases hm : synonymMap m with
    | none =>
      simp only [hm]
      constructor
      · rintro (hacc | ⟨mw, hmw, hsyn⟩)
        · exact Or.inl hacc
        · exact Or.inr ⟨mw, List.mem_cons_of_mem _ hmw, hsyn⟩
      · rintro (hacc | ⟨mw, hmw, hsyn⟩)
        · exact Or.inl hacc
        · rcases List.mem_cons.mp hmw with rfl | hmw2
          · rw [hm] at hsyn
            exact absurd hsyn (by simp)
          · exact Or.inr ⟨mw, hmw2, hsyn⟩
    | some s =>
      by_cases hc : acc.contains s = true
      · have hs : s ∈ acc := by simpa using hc
        simp only [hm, hc, if_true]
        constructor
        · rintro (hacc | ⟨mw, hmw, hsyn⟩)
          · exact Or.inl hacc
          · exact Or.inr ⟨mw, List.mem_cons_of_mem _ hmw, hsyn⟩
        · rintro (hacc | ⟨mw, hmw, hsyn⟩)
          · exact Or.inl hacc
          · rcases List.mem_cons.mp hmw with rfl | hmw2
            · rw [hm] at hsyn
              obtain rfl := Option.some.inj hsyn
              exact Or.inl hs
            · exact Or.inr ⟨mw, hmw2, hsyn⟩
      · rw [Bool.not_eq_true] at hc
        simp only [hm, hc, Bool.false_eq_true, if_false]
        constructor
        · rintro (hacc | ⟨mw, hmw, hsyn⟩)
          · rcases List.mem_append.mp hacc with h1 | h1
            · exact Or.inl h1
            · obtain rfl := List.mem_singleton.mp h1
              exact Or.inr ⟨m, List.mem_cons_self _ _, hm⟩
          · exact Or.inr ⟨mw, List.mem_cons_of_mem _ hmw, hsyn⟩
        · rintro (hacc | ⟨mw, hmw, hsyn⟩)
          · exact Or.inl (List.mem_append.mpr (Or.inl hacc))
          · rcases List.mem_cons.mp hmw with rfl | hmw2
            · rw [hm] at hsyn
              obtain rfl := Option.some.inj hsyn
              exact Or.inl (List.mem_append.mpr (Or.inr (List.mem_singleton.mpr rfl)))
            · exact Or.inr ⟨mw, hmw2, hsyn⟩

/-- Helper: the synonym table sends exactly the seven listed class names to
registry names, `Abs` renamed to `abs`. -/
theorem synonymMap_eq_some_iff (m n : String) :
    synonymMap m = some n ↔
      ((m = "sin" ∨ m = "cos" ∨ m = "tan" ∨ m = "log" ∨ m = "exp" ∨
          m = "sqrt") ∧ n = m) ∨
      (m = "Abs" ∧ n = "abs") := by
  by_cases hmem :
      (["sin", "cos", "tan", "log", "exp", "sqrt", "Abs"].contains m) = true
  · have hcases : m = "sin" ∨ m = "cos" ∨ m = "tan" ∨ m = "log" ∨ m = "exp" ∨
        m = "sqrt" ∨ m = "Abs" := by
      simpa using hmem
    rcases hcases with rfl | rfl | rfl | rfl | rfl | rfl | rfl <;>
      simp [synonymMap, eq_comm]
  · rw [Bool.not_eq_true] at hmem
    have hne : ¬(m = "sin" ∨ m = "cos" ∨ m = "tan" ∨ m = "log" ∨ m = "exp" ∨
        m = "sqrt" ∨ m = "Abs") := by
      simpa using hmem
    push_neg at hne
    simp [synonymMap, hmem, hne.1, hne.2.1, hne.2.2.1, hne.2.2.2.1,
      hne.2.2.2.2.1, hne.2.2.2.2.2.1, hne.2.2.2.2.2.2]

/-- Helper: membership characterization of `_extract_functions`. -/
theorem mem_extractFunctions_iff (e : SymExpr) (n : String) :
    n ∈ extractFunctions e ↔
      ((n = "sin" ∨ n = "cos" ∨ n = "tan" ∨ n = "log" ∨ n = "exp" ∨
          n = "sqrt") ∧ n ∈ preorderNames e) ∨
      (n = "abs" ∧ "Abs" ∈ preorderNames e) := by
  unfold extractFunctions
  rw [mem_extract_foldl]
  simp only [List.not_mem_nil, false_or]
  constructor
  · rintro ⟨mw, hmw, hsyn⟩
    rcases (synonymMap_eq_some_iff mw n).mp hsyn with ⟨hd, rfl⟩ | ⟨rfl, rfl⟩
    · exact Or.inl ⟨hd, hmw⟩
    · exact Or.inr ⟨rfl, hmw⟩
  · rintro (⟨hd, hmem⟩ | ⟨rfl, hmem⟩)
    · exact ⟨n, hmem, (synonymMap_eq_some_iff n n).mpr (Or.inl ⟨hd, rfl⟩)⟩
    · exact ⟨"Abs", hmem,
        (synonymMap_eq_some_iff "Abs" "abs").mpr (Or.inr ⟨rfl, rfl⟩)⟩

/-- C3 (amended). The function-extraction step collects exactly the callee
class names among `sin cos tan log exp sqrt` plus `Abs` (renamed `abs`);
every collected name is a registry member, so `_validate_functions` succeeds
on every tree — expressions calling functions absent from the registry parse
without an unsupported-function error (see the counterexample). -/
theorem extract_functions_closed_set (e : SymExpr) (n : String) :
    (n ∈ extractFunctions e ↔
      ((n = "sin" ∨ n = "cos" ∨ n = "tan" ∨ n = "log" ∨ n = "exp" ∨
          n = "sqrt") ∧ n ∈ preorderNames e) ∨
      (n = "abs" ∧ "Abs" ∈ preorderNames e)) ∧
    (n ∈ extractFunctions e → isFunctionSupported n = true) ∧
    validateFunctions (extractFunctions e) = Except.ok () := by
  have hsup : ∀ k, k ∈ extractFunctions e → isFunctionSupported k = true := by
    intro k hk
    rcases (mem_extractFunctions_iff e k).mp hk with ⟨hd, _⟩ | ⟨rfl, _⟩
    · rcases hd with rfl | rfl | rfl | rfl | rfl | rfl <;> decide
    · decide
  refine ⟨mem_extractFunctions_iff e n, hsup n, ?_⟩
  unfold validateFunctions
  have hfilter :
      (extractFunctions e).filter (fun k => !(isFunctionSupported k)) = [] := by
    rw [List.filter_eq_nil_iff]
    intro k hk
    simp [hsup k hk]
  rw [hfilter]
  rfl

/-- C3 counterexample: `foo(x)` calls `foo`, which is absent from the
registry, yet `parse_expression` succeeds instead of failing. -/
theorem unsupported_function_parses_counterexample :
    isFunctionSupported "foo" = false ∧
    sympifyModel "foo(x)" =
      some (SymExpr.node "foo" (SymArgs.cons (SymExpr.symbol "x") SymArgs.nil)) ∧
    "foo" ∈ preorderNames
      (SymExpr.node "foo" (SymArgs.cons (SymExpr.symbol "x") SymArgs.nil)) ∧
    parseExpression sympifyModel "foo(x)" =
      Except.ok { expression := "foo(x)", «variables» := ["x"],
                  parameters := [] } := by
  decide

/-- Witness for `extract_functions_closed_set` on the tree of `sin(x)`. -/
theorem extract_functions_closed_set_witness :
    "sin" ∈ extractFunctions
      (SymExpr.node "sin" (SymArgs.cons (SymExpr.symbol "x") SymArgs.nil)) ∧
    isFunctionSupported "sin" = true ∧
    validateFunctions (extractFunctions
      (SymExpr.node "sin" (SymArgs.cons (SymExpr.symbol "x") SymArgs.nil))) =
      Except.ok () := by
  have h := extract_functions_closed_set
    (SymExpr.node "sin" (SymArgs.cons (SymExpr.symbol "x") SymArgs.nil)) "sin"
  have hmem : "sin" ∈ extractFunctions
      (SymExpr.node "sin" (SymArgs.cons (SymExpr.symbol "x") SymArgs.nil)) :=
    h.1.mpr (Or.inl ⟨by decide, by decide⟩)
  exact ⟨hmem, h.2.1 hmem, h.2.2⟩

/-- C4 (amended). The evaluation namespace merges, later overriding earlier:
(a) the base dict (`__builtins__` allowlist, `np`, `pd`), (b) the
FunctionRegistry entries, (c) the caller-supplied data bindings, and (d) the
fixed constants `pi`, `e`, `inf`, `nan` last — so a data binding named like
a constant resolves to the constant, any other bound name resolves to its
data vector, and unbound names fall through to the registry and then the
base dict. -/
theorem namespace_merge_precedence
    (dataVars : List (String × NsValue)) (k : String) (v : NsValue)
    (hk : k ∉ ["pi", "e", "inf", "nan"]) :
    (createSafeNamespace dataVars "pi" = some (NsValue.obj "np.pi") ∧
     createSafeNamespace dataVars "e" = some (NsValue.obj "np.e") ∧
     createSafeNamespace dataVars "inf" = some (NsValue.obj "np.inf") ∧
     createSafeNamespace dataVars "nan" = some (NsValue.obj "np.nan")) ∧
    (dataVars.lookup k = some v → createSafeNamespace dataVars k = some v) ∧
    (dataVars.lookup k = none → getAllFunctions.lookup k = some v →
      createSafeNamespace dataVars k = some v) ∧
    (dataVars.lookup k = none → getAllFunctions.lookup k = none →
      createSafeNamespace dataVars k = baseNamespace k) := by
  have hconst : mathConstants.lookup k = none := by
    simp only [List.mem_cons, List.not_mem_nil, or_false, not_or] at hk
    have hb1 : (k == "pi") = false := beq_eq_false_iff_ne.mpr hk.1
    have hb2 : (k == "e") = false := beq_eq_false_iff_ne.mpr hk.2.1
    have hb3 : (k == "inf") = false := beq_eq_false_iff_ne.mpr hk.2.2.1
    have hb4 : (k == "nan") = false := beq_eq_false_iff_ne.mpr hk.2.2.2
    simp [mathConstants, List.lookup, hb1, hb2, hb3, hb4]
  refine ⟨⟨rfl, rfl, rfl, rfl⟩, ?_, ?_, ?_⟩
  · intro hv
    simp [createSafeNamespace, dictUpd, hconst, hv]
  · intro hv hf
    simp [createSafeNamespace, dictUpd, hconst, hv, hf]
  · intro hv hf
    simp [createSafeNamespace, dictUpd, hconst, hv, hf]

/-- C4 counterexample: a data binding for the name `pi` does not resolve to
the bound vector — the constant, merged afterwards, shadows it. -/
theorem constant_shadows_binding_counterexample :
    createSafeNamespace [("pi", NsValue.data [1, 2, 3])] "pi" =
      some (NsValue.obj "np.pi") ∧
    createSafeNamespace [("pi", NsValue.data [1, 2, 3])] "pi" ≠
      some (NsValue.data [1, 2, 3]) := by
  decide

/-- Witness for `namespace_merge_precedence` on a binding list that shadows
`pi` and binds `x`. -/
theorem namespace_merge_precedence_witness :
    createSafeNamespace [("pi", NsValue.data [1]), ("x", NsValue.data [5])]
      "pi" = some (NsValue.obj "np.pi") ∧
    createSafeNamespace [("pi", NsValue.data [1]), ("x", NsValue.data [5])]
      "x" = some (NsValue.data [5]) ∧
    createSafeNamespace [("pi", NsValue.data [1]), ("x", NsValue.data [5])]
      "sin" = some (NsValue.obj "np.sin") := by
  have hx := namespace_merge_precedence
    [("pi", NsValue.data [1]), ("x", NsValue.data [5])] "x" (NsValue.data [5])
    (by decide)
  have hsin := namespace_merge_precedence
    [("pi", NsValue.data [1]), ("x", NsValue.data [5])] "sin"
    (NsValue.obj "np.sin") (by decide)
  exact ⟨hx.1.1, hx.2.1 (by decide), hsin.2.2.1 (by decide) (by decide)⟩

/-- Helper: the data-variable dict built by `_prepare_data_variables` binds a
name exactly when it is requested and the loop body resolves it. -/
theorem prepare_lookup (df : DataFrame) (vsReq : List String) (v : String) :
    (prepareDataVariables df vsReq).lookup v =
      if v ∈ vsReq then resolveVar df v else none := by
  induction vsReq with
  | nil => simp [prepareDataVariables]
  | cons u rest ih =>
    simp only [prepareDataVariables, List.filterMap_cons] at ih ⊢
    cases hr : resolveVar df u with
    | none =>
      simp only [hr, Option.map_none']
      rw [ih]
      by_cases hv : v = u
      · subst hv
        by_cases hmem : v ∈ rest
        · simp [hmem, List.mem_cons]
        · simp [hmem, List.mem_cons, hr]
      · simp [List.mem_cons, hv]
    | some val =>
      simp only [hr, Option.map_some']
      by_cases hv : v = u
      · subst hv
        simp [List.lookup, List.mem_cons, hr]
      · simp only [List.lookup, beq_eq_false_iff_ne.mpr hv]
        rw [ih]
        simp [List.mem_cons, hv]

/-- C5 (amended). Per requested name: (1) an exact column match binds the
column; (2) `index` binds the row index; (3) `col_N` with `N` an in-range
zero-based position binds that column; (3b) `col_N` with out-of-range `N`
enters the positional branch but binds nothing, leaving the name unbound —
binding is not total; (4) any other name binds the synthetic `np.arange`
sequence. -/
theorem data_binding_resolution
    (df : DataFrame) (v : String) (vals : List Int) (colIdx : Nat)
    (vsReq : List String) :
    (df.cols.lookup v = some vals →
      resolveVar df v = some (NsValue.data vals)) ∧
    (df.cols.lookup v = none → v = "index" →
      resolveVar df v = some (NsValue.data (indexValues df))) ∧
    (df.cols.lookup v = none → v ≠ "index" → colSuffix v = some colIdx →
      colIdx < df.cols.length →
      resolveVar df v = (df.cols.get? colIdx).map (fun p => NsValue.data p.2)) ∧
    (df.cols.lookup v = none → v ≠ "index" → colSuffix v = some colIdx →
      ¬ colIdx < df.cols.length → resolveVar df v = none) ∧
    (df.cols.lookup v = none → v ≠ "index" → colSuffix v = none →
      resolveVar df v = some (NsValue.data (arangeRows df))) ∧
    ((prepareDataVariables df vsReq).lookup v =
      if v ∈ vsReq then resolveVar df v else none) := by
  refine ⟨?_, ?_, ?_, ?_, ?_, prepare_lookup df vsReq v⟩
  · intro h
    simp [resolveVar, h]
  · intro h hidx
    subst hidx
    simp [resolveVar, h]
  · intro h hne hcs hlt
    simp [resolveVar, h, hne, hcs, hlt]
  · intro h hne hcs hnlt
    simp [resolveVar, h, hne, hcs, hnlt]
  · intro h hne hcs
    simp [resolveVar, h, hne, hcs]

/-- C5 counterexample: the requested name `col_5` on a single-column table is
left unbound (no entry at all), refuting totality of the binder. -/
theorem out_of_range_col_unbound_counterexample :
    (prepareDataVariables { cols := [("a", [10, 20])], nrows := 2 }
      ["col_5"]).lookup "col_5" = none ∧
    resolveVar { cols := [("a", [10, 20])], nrows := 2 } "col_5" = none := by
  decide

/-- Witness for `data_binding_resolution` over a two-row one-column frame. -/
theorem data_binding_resolution_witness :
    resolveVar { cols := [("a", [10, 20])], nrows := 2 } "a" =
      some (NsValue.data [10, 20]) ∧
    resolveVar { cols := [("a", [10, 20])], nrows := 2 } "index" =
      some (NsValue.data [0, 1]) ∧
    resolveVar { cols := [("a", [10, 20])], nrows := 2 } "col_0" =
      some (NsValue.data [10, 20]) ∧
    resolveVar { cols := [("a", [10, 20])], nrows := 2 } "col_5" = none ∧
    resolveVar { cols := [("a", [10, 20])], nrows := 2 } "z" =
      some (NsValue.data [0, 1]) ∧
    (prepareDataVariables { cols := [("a", [10, 20])], nrows := 2 }
      ["a", "col_5"]).lookup "col_5" = none := by
  have ha := data_binding_resolution
    { cols := [("a", [10, 20])], nrows := 2 } "a" [10, 20] 0 ["a", "col_5"]
  have hidx := data_binding_resolution
    { cols := [("a", [10, 20])], nrows := 2 } "index" [10, 20] 0 ["a", "col_5"]
  have hc0 := data_binding_resolution
    { cols := [("a", [10, 20])], nrows := 2 } "col_0" [10, 20] 0 ["a", "col_5"]
  have hc5 := data_binding_resolution
    { cols := [("a", [10, 20])], nrows := 2 } "col_5" [10, 20] 5 ["a", "col_5"]
  have hz := data_binding_resolution
    { cols := [("a", [10, 20])], nrows := 2 } "z" [10, 20] 0 ["a", "col_5"]
  refine ⟨ha.1 (by decide), ?_, ?_,
    hc5.2.2.2.1 (by decide) (by decide) (by decide) (by decide), ?_, ?_⟩
  · rw [hidx.2.1 (by decide) rfl]
    decide
  · rw [hc0.2.2.1 (by decide) (by decide) (by decide) (by decide)]
    decide
  · rw [hz.2.2.2.2.1 (by decide) (by decide) (by decide)]
    decide
  · rw [hc5.2.2.2.2.2]
    decide

/-- C1. `FunctionProcessor.apply_function`, delegating to
`SafeExecutionEnvironment.apply_function_to_data`, returns a
`ProcessingResult` on every input — the model is total, no exception
crosses the boundary: `status = "success"` with a null `error_message`
exactly when the source held a DataFrame and the sandboxed evaluation
returned a value, and every failure (non-DataFrame content, timeout, or any
other evaluation exception) yields `status = "error"` with a non-null
`error_message`. -/
theorem apply_function_result_wellformed
    (evalOracle : String → (String → Option NsValue) → PyOutcome)
    (maxExecutionTime : Nat) (data : DataSource) (fe : FunctionExpression) :
    (((applyFunction evalOracle maxExecutionTime data fe).status = "success" ∧
        (applyFunction evalOracle maxExecutionTime data fe).error_message =
          none) ∨
      ((applyFunction evalOracle maxExecutionTime data fe).status = "error" ∧
        (applyFunction evalOracle maxExecutionTime data fe).error_message ≠
          none)) ∧
    ((applyFunction evalOracle maxExecutionTime data fe).status = "error" ↔
      data.content = none ∨
      ∃ df err, data.content = some df ∧
        executeExpression evalOracle maxExecutionTime fe.expression
          (createSafeNamespace (prepareDataVariables df fe.«variables»)) =
          Except.error err) := by
  cases hc : data.content with
  | none =>
    constructor
    · exact Or.inr (by simp [applyFunction, applyFunctionToData, hc])
    · simp [applyFunction, applyFunctionToData, hc]
  | some df =>
    cases he : executeExpression evalOracle maxExecutionTime fe.expression
        (createSafeNamespace (prepareDataVariables df fe.«variables»)) with
    | ok v =>
      constructor
      · exact Or.inl (by simp [applyFunction, applyFunctionToData, hc, he])
      · simp [applyFunction, applyFunctionToData, hc, he]
    | error err =>
      cases err with
      | timeoutErr m =>
        constructor
        · exact Or.inr (by simp [applyFunction, applyFunctionToData, hc, he])
        · simp [applyFunction, applyFunctionToData, hc, he]
      | parseFail m =>
        constructor
        · exact Or.inr (by simp [applyFunction, applyFunctionToData, hc, he])
        · simp [applyFunction, applyFunctionToData, hc, he]

/-- Witness for `apply_function_result_wellformed` at a concrete source,
expression and evaluation oracle. -/
theorem apply_function_result_wellformed_witness :
    (applyFunction (fun _ _ => PyOutcome.ok (PyValue.num 3)) 30
      { id := "d", format := "csv",
        content := some { cols := [("x", [1, 2])], nrows := 2 } }
      { expression := "x", «variables» := ["x"], parameters := [] }).status =
      "success" := by
  have h := apply_function_result_wellformed
    (fun _ _ => PyOutcome.ok (PyValue.num 3)) 30
    { id := "d", format := "csv",
      content := some { cols := [("x", [1, 2])], nrows := 2 } }
    { expression := "x", «variables» := ["x"], parameters := [] }
  rcases h.1 with ⟨hs, _⟩ | ⟨hs, _⟩
  · exact hs
  · exact absurd hs (by decide)

/-- Witness for `validate_syntax_iff_parse_succeeds` at an accepted input. -/
theorem validate_syntax_iff_parse_succeeds_witness :
    validateSyntax sympifyModel "power_transform(x)" = true :=
  (validate_syntax_iff_parse_succeeds sympifyModel "power_transform(x)").mpr
    ⟨{ expression := "power_transform(x)", «variables» := ["x"],
       parameters := [] }, by decide⟩
